import Mathlib

/-!
Verification of the request-construction and retry-orchestration layer
(header merging, body normalization, retry policy, HTTP error type)
against its specification.  The header merger, body normalizer and retry
policy are modelled from the specification (their implementation files are
not part of this source snapshot; the repository's test suite pins their
observable behaviour).  The HTTP error type is embedded directly from
source/errors/HTTPError.js.
-/

namespace Ky

/-! ## Header merging -/

/-- Modelled from the spec: a header source handed to the merger.  It may be
absent (JavaScript null / undefined), or a mapping given as an ordered list
of key / value entries where a `none` value is the explicit removal sentinel
(a plain object with an `undefined` value); a platform header-collection
object or an array of pairs is the same data with every value present. -/
inductive HeaderInit where
  | nullish
  | pairs (entries : List (String × Option String))
deriving DecidableEq, Repr

/-- Modelled from the spec: absent inputs normalize to an empty mapping
before merge (the `source ?? \x7b\x7d` coalescing step), so the platform
header-collection constructor is never handed null / undefined. -/
def coalesceInit : HeaderInit → HeaderInit
  | .nullish => .pairs []
  | h => h

/-- The entries of a header source, in order. -/
def initEntries : HeaderInit → List (String × Option String)
  | .nullish => []
  | .pairs l => l

/-- Lowercase a header name character by character (header names are ASCII;
this is JavaScript `toLowerCase` restricted to them). -/
def lowerKey (s : String) : String :=
  String.mk (s.data.map Char.toLower)

/-- Platform `Headers.set`: replace the value of an existing entry with the
same (already lowercased) key in place, otherwise append a new entry. -/
def setHeader (hs : List (String × String)) (k v : String) : List (String × String) :=
  if hs.any (fun p => p.1 = k) then
    hs.map (fun p => if p.1 = k then (k, v) else p)
  else
    hs ++ [(k, v)]

/-- Platform `Headers.delete`: drop every entry with the given
(already lowercased) key. -/
def deleteHeader (hs : List (String × String)) (k : String) : List (String × String) :=
  hs.filter (fun p => p.1 ≠ k)

/-- Apply one source entry to the accumulated collection: keys are
lowercased (case-insensitive identity), a present value is set and the
removal sentinel deletes. -/
def applyHeaderEntry (hs : List (String × String)) (e : String × Option String) :
    List (String × String) :=
  match e.2 with
  | some v => setHeader hs (lowerKey e.1) v
  | none => deleteHeader hs (lowerKey e.1)

/-- Modelled from the spec: `merge(base, override)`.  Both inputs are
coalesced to an empty mapping when absent, then their entries are applied
in order (base first, override last) to a fresh collection. -/
def mergeHeaders (base override : HeaderInit) : List (String × String) :=
  (initEntries (coalesceInit base) ++ initEntries (coalesceInit override)).foldl
    applyHeaderEntry []

/-- Look up the value transmitted for a key in the merged collection. -/
def lookupHeader (hs : List (String × String)) (k : String) : Option String :=
  (hs.find? (fun p => p.1 = k)).map (fun p => p.2)

/-- Modelled from the spec: an old-browser platform header-collection
constructor, which throws (returns `none`) when invoked with
null / undefined and otherwise builds the collection. -/
def strictHeadersConstructor : HeaderInit → Option (List (String × String))
  | .nullish => none
  | .pairs l => some (l.foldl applyHeaderEntry [])

/-! ## Decimal rendering of naturals

JavaScript renders the numeric status code and byte counts in decimal.
`natDigitsAux` is the usual fuel-indexed digit loop (the fuel `n + 1`
always suffices since the argument shrinks by a factor of ten). -/

/-- Digit loop: prepend the decimal digits of `n` to `acc`. -/
def natDigitsAux : Nat → Nat → List Char → List Char
  | 0, _, acc => acc
  | fuel + 1, n, acc =>
    if n / 10 = 0 then Nat.digitChar (n % 10) :: acc
    else natDigitsAux fuel (n / 10) (Nat.digitChar (n % 10) :: acc)

/-- Decimal rendering of a natural number. -/
def natToStr (n : Nat) : String :=
  String.mk (natDigitsAux (n + 1) n [])

/-! ## Body normalization -/

/-- Request methods. -/
inductive HttpMethod where
  | get
  | post
  | put
  | patch
  | delete
  | head
deriving DecidableEq, Repr

/-- Modelled from the spec: the content-length the body normalizer
transmits (none means no content-length header is sent), given the method,
the caller's explicit content-length header if any, and the body
(none for no body at all, `some s` for a text body).  A text body's length
is its UTF-8 byte length; an explicit content-length of zero contradicted
by a non-empty body is overridden with the real computed length; an
explicit PUT or PATCH with no body still transmits a zero content-length,
while GET and HEAD transmit none. -/
def transmittedContentLength (m : HttpMethod) (explicit : Option String)
    (body : Option String) : Option String :=
  match body, explicit with
  | some b, some v => if v = "0" ∧ b ≠ "" then some (natToStr b.utf8ByteSize) else some v
  | some b, none => some (natToStr b.utf8ByteSize)
  | none, some v => some v
  | none, none => if m = .put ∨ m = .patch then some "0" else none

/-- The content-type value derived for a structured multi-part form body;
the exact shape (no space after the semicolon) is pinned by the repository
tests on automatic form content-type headers. -/
def formContentType (boundary : String) : String :=
  "multipart/form-data;boundary=" ++ boundary

/-- Modelled from the spec: the content-type the body normalizer transmits
for a structured multi-part form body with the given boundary: the caller's
explicit value when one is set, otherwise the derived multipart value. -/
def transmittedContentType (explicit : Option String) (boundary : String) : String :=
  match explicit with
  | some v => v
  | none => formContentType boundary

/-! ## Retry policy -/

/-- Modelled from the spec: the retry sub-configuration (durations in
milliseconds). -/
structure RetryOptions where
  limit : Nat
  methods : List String
  statusCodes : List Nat
  afterStatusCodes : List Nat
  maxRetryAfter : Nat
  backoffLimit : Nat
deriving DecidableEq, Repr

/-- The outcome of one attempt: a network-level error (no response), or a
response with its status and the server-specified retry-after delay, if
any, already converted from seconds or HTTP-date to milliseconds. -/
inductive AttemptOutcome where
  | networkError
  | httpResponse (status : Nat) (retryAfterMs : Option Nat)
deriving DecidableEq, Repr

/-- A retry decision: whether to retry, and the delay preceding the retry. -/
structure RetryDecision where
  retry : Bool
  delayMs : Nat
deriving DecidableEq, Repr

/-- An outcome is retry-eligible when it is a network-level error or its
status is in the configured retryable status set. -/
def retryableOutcome (o : RetryOptions) : AttemptOutcome → Bool
  | .networkError => true
  | .httpResponse status _ => decide (status ∈ o.statusCodes)

/-- A server-specified retry-after applies when the response carries one
and the status is in the after-status-codes set. -/
def retryAfterApplies (o : RetryOptions) : AttemptOutcome → Bool
  | .httpResponse status (some _) => decide (status ∈ o.afterStatusCodes)
  | _ => false

/-- Exponential backoff: `min(backoffLimit, 0.3 * 2 ^ (n - 1) * 1000)`
milliseconds, written over naturals as `300 * 2 ^ (n - 1)`. -/
def backoffDelayMs (backoffLimit n : Nat) : Nat :=
  min backoffLimit (300 * 2 ^ (n - 1))

/-- Modelled from the spec: `shouldRetry` of the retry policy, with `n` the
1-based number of the prospective retry (the spec counts attempts from 0
and increments before each retry, so its `count < limit` reads `n ≤ limit`).
A retry is eligible only if `n ≤ limit`, the method is allowed, and the
outcome is retryable.  When eligible and a retry-after applies, a delay
within the maximum is used as is and a delay exceeding the maximum declines
the retry; otherwise the delay is the exponential backoff. -/
def shouldRetry (o : RetryOptions) (n : Nat) (method : String)
    (outcome : AttemptOutcome) : RetryDecision :=
  if n ≤ o.limit ∧ method ∈ o.methods ∧ retryableOutcome o outcome = true then
    match outcome with
    | .httpResponse status (some ra) =>
      if status ∈ o.afterStatusCodes then
        if o.maxRetryAfter < ra then ⟨false, 0⟩
        else ⟨true, min ra o.maxRetryAfter⟩
      else ⟨true, backoffDelayMs o.backoffLimit n⟩
    | _ => ⟨true, backoffDelayMs o.backoffLimit n⟩
  else ⟨false, 0⟩

/-! ## The HTTP error type (source/errors/HTTPError.js) -/

/-- JavaScript whitespace as trimmed by `String.prototype.trim`, restricted
to the ASCII whitespace characters (the full set also has Unicode space
separators, which never occur in the strings at hand). -/
def isJsWs (c : Char) : Bool :=
  decide (c = ' ' ∨ c = '\t' ∨ c = '\n' ∨ c = '\r' ∨ c = '\x0B' ∨ c = '\x0C')

/-- Drop whitespace from both ends of a character list. -/
def trimChars (l : List Char) : List Char :=
  ((l.dropWhile isJsWs).reverse.dropWhile isJsWs).reverse

/-- JavaScript `String.prototype.trim`. -/
def jsTrim (s : String) : String :=
  String.mk (trimChars s.data)

/-- A platform response as far as HTTPError consumes it: `status` is the
numeric status code (`none` when absent), `statusText` defaults to the
empty string, `bodyText` is the body behind the json accessor. -/
structure JsResponse where
  status : Option Nat
  statusText : String
  bodyText : String
deriving DecidableEq, Repr

/-- `Response.clone()`: a fresh response with the same content (the clone
exists so reading the error body does not consume the original stream). -/
def cloneResponse (r : JsResponse) : JsResponse :=
  ⟨r.status, r.statusText, r.bodyText⟩

/-- The HTTPError object: an Error with `name` and `message`, carrying the
response, request and options passed to the constructor. -/
structure HTTPError (Req Opt : Type) where
  name : String
  message : String
  response : JsResponse
  request : Req
  options : Opt

/-- The HTTPError constructor: `code` is the status when present (zero
included, via the explicit `status === 0` test) and empty otherwise,
`status` interpolates code and statusText and trims, and the message is
the unknown-error text exactly when that trims to nothing. -/
def mkHTTPError {Req Opt : Type} (response : JsResponse) (request : Req)
    (options : Opt) : HTTPError Req Opt :=
  let code : String := match response.status with
    | some n => natToStr n
    | none => ""
  let title : String := response.statusText
  let status : String := jsTrim (code ++ " " ++ title)
  let reason : String :=
    if status = "" then "an unknown error" else "status code " ++ status
  { name := "HTTPError"
    message := "Request failed with " ++ reason
    response := response
    request := request
    options := options }

/-- The `json()` accessor: parse (with the platform JSON parser) the body
of a clone of the carried response. -/
def HTTPError.json {Req Opt : Type} {α : Type} (e : HTTPError Req Opt)
    (parse : String → α) : α :=
  parse (cloneResponse e.response).bodyText

/-! ## Theorems -/

theorem mergeHeaders_pairs_append (base : HeaderInit) (l : List (String × Option String)) :
    mergeHeaders base (.pairs l)
      = l.foldl applyHeaderEntry (mergeHeaders base .nullish) := by
  cases base <;> simp [mergeHeaders, coalesceInit, initEntries, List.foldl_append]

theorem find?_filter_of_imp (l : List (String × String))
    (p q : (String × String) → Bool) (h : ∀ x, p x = true → q x = true) :
    (l.filter q).find? p = l.find? p := by
  induction l with
  | nil => rfl
  | cons a t ih =>
    by_cases hq : q a = true
    · by_cases hp : p a = true
      · simp [List.filter_cons, hq, List.find?_cons_of_pos, hp]
      · simp only [Bool.not_eq_true] at hp
        simp [List.filter_cons, hq, List.find?_cons_of_neg, hp, ih]
    · have hp : p a = false := by
        cases hpa : p a with
        | false => rfl
        | true => exact absurd (h a hpa) hq
      simp only [Bool.not_eq_true] at hq
      simp [List.filter_cons, hq, List.find?_cons_of_neg, hp, ih]

theorem lookupHeader_deleteHeader_self (hs : List (String × String)) (k : String) :
    lookupHeader (deleteHeader hs k) k = none := by
  unfold lookupHeader deleteHeader
  rw [List.find?_eq_none.mpr]
  · rfl
  · intro x hx
    have := (List.mem_filter.mp hx).2
    simp only [decide_eq_true_eq] at this ⊢
    exact fun h => this (by simp [h])

theorem lookupHeader_deleteHeader_other (hs : List (String × String)) (k j : String)
    (h : j ≠ k) : lookupHeader (deleteHeader hs k) j = lookupHeader hs j := by
  unfold lookupHeader deleteHeader
  rw [find?_filter_of_imp]
  intro x hx
  simp only [decide_eq_true_eq] at hx ⊢
  exact fun hk => h (hx ▸ hk ▸ rfl)

/-- Claim C4: a value explicitly marked for removal (undefined) in the later
layer deletes any prior entry with the same case-insensitive key instead of
setting a value, entries for other keys survive unchanged, and the instance
headers rainbow / unicorn extended with an undefined rainbow yield headers
containing unicorn only. -/
theorem headers_removal_deletes (base : HeaderInit) (k j : String)
    (h : j ≠ lowerKey k) :
    lookupHeader (mergeHeaders base (.pairs [(k, none)])) (lowerKey k) = none
    ∧ lookupHeader (mergeHeaders base (.pairs [(k, none)])) j
        = lookupHeader (mergeHeaders base .nullish) j
    ∧ mergeHeaders (.pairs [("rainbow", some "rainbow"), ("unicorn", some "unicorn")])
        (.pairs [("rainbow", none)]) = [("unicorn", "unicorn")] := by
  have e : mergeHeaders base (.pairs [(k, none)])
      = deleteHeader (mergeHeaders base .nullish) (lowerKey k) := by
    rw [mergeHeaders_pairs_append]
    rfl
  refine ⟨?_, ?_, by decide⟩
  · rw [e]
    exact lookupHeader_deleteHeader_self _ _
  · rw [e]
    exact lookupHeader_deleteHeader_other _ _ _ h

/-- Witness for C4 at the spec scenario: parent headers rainbow / unicorn,
extend layer removes rainbow; rainbow is gone and unicorn survives. -/
theorem headers_removal_deletes_witness :
    lookupHeader (mergeHeaders
        (.pairs [("rainbow", some "rainbow"), ("unicorn", some "unicorn")])
        (.pairs [("rainbow", none)])) "rainbow" = none
    ∧ lookupHeader (mergeHeaders
        (.pairs [("rainbow", some "rainbow"), ("unicorn", some "unicorn")])
        (.pairs [("rainbow", none)])) "unicorn"
        = lookupHeader (mergeHeaders
            (.pairs [("rainbow", some "rainbow"), ("unicorn", some "unicorn")])
            .nullish) "unicorn"
    ∧ mergeHeaders (.pairs [("rainbow", some "rainbow"), ("unicorn", some "unicorn")])
        (.pairs [("rainbow", none)]) = [("unicorn", "unicorn")] := by
  have h := headers_removal_deletes
    (.pairs [("rainbow", some "rainbow"), ("unicorn", some "unicorn")])
    "rainbow" "unicorn" (by decide)
  have e : lowerKey "rainbow" = "rainbow" := by decide
  rw [e] at h
  exact h

/-- Claim C5: keys differing only by letter case denote the same header:
they merge to a single entry, keyed by the lower-case name, and the later
writer's value wins. -/
theorem headers_case_insensitive (k k' v w : String) (h : lowerKey k' = lowerKey k) :
    mergeHeaders (.pairs [(k, some v)]) (.pairs [(k', some w)]) = [(lowerKey k, w)] := by
  simp [mergeHeaders, coalesceInit, initEntries, applyHeaderEntry, setHeader, h]

/-- Witness for C5 at the spec scenario: ACCEPT-ENCODING set in upper case
replaces the default accept-encoding value and is transmitted lower-case. -/
theorem headers_case_insensitive_witness :
    mergeHeaders (.pairs [("accept-encoding", some "gzip,deflate")])
      (.pairs [("ACCEPT-ENCODING", some "identity")]) = [("accept-encoding", "identity")] := by
  have h := headers_case_insensitive "accept-encoding" "ACCEPT-ENCODING"
    "gzip,deflate" "identity" (by decide)
  have e : lowerKey "accept-encoding" = "accept-encoding" := by decide
  rw [e] at h
  exact h

/-- Claim C6: absent (null / undefined) header inputs normalize to an empty
mapping before merging, so the platform header-collection constructor is
never invoked with an absent argument (it always receives a proper mapping,
the empty one for absent input) and the merge is total on such inputs. -/
theorem headers_nullish_safe (base override : HeaderInit) :
    coalesceInit .nullish = .pairs []
    ∧ (strictHeadersConstructor (coalesceInit base)).isSome = true
    ∧ mergeHeaders .nullish override = mergeHeaders (.pairs []) override
    ∧ mergeHeaders base .nullish = mergeHeaders base (.pairs []) := by
  refine ⟨rfl, ?_, rfl, rfl⟩
  cases base <;> rfl

/-- Claim C3: when the caller explicitly sets the content-length header to
zero but supplies a non-empty body, the transmitted content-length is the
real computed byte length of the body, not the explicit zero. -/
theorem explicit_zero_contentLength_overridden (m : HttpMethod) (b : String)
    (h : b ≠ "") :
    transmittedContentLength m (some "0") (some b) = some (natToStr b.utf8ByteSize) := by
  simp [transmittedContentLength, h]

/-- Witness for C3 at the spec scenario: a POST with body sup and explicit
content-length zero transmits content-length three. -/
theorem explicit_zero_contentLength_overridden_witness :
    transmittedContentLength .post (some "0") (some "sup") = some "3" := by
  have h := explicit_zero_contentLength_overridden .post "sup" (by decide)
  exact h.trans (by decide)

/-- Claim C8: a GET or HEAD request with an empty body, and an explicit PUT
or PATCH request with an empty (or absent) body, transmit a content-length
header of zero. -/
theorem empty_body_contentLength_zero (m : HttpMethod)
    (h : m = .get ∨ m = .head ∨ m = .put ∨ m = .patch) :
    transmittedContentLength m none (some "") = some "0"
    ∧ ((m = .put ∨ m = .patch) → transmittedContentLength m none none = some "0") := by
  constructor
  · rfl
  · intro hm
    rcases hm with hm | hm <;> subst hm <;> decide

/-- Witness for C8: a PUT with an empty or absent body transmits
content-length zero. -/
theorem empty_body_contentLength_zero_witness :
    transmittedContentLength .put none (some "") = some "0"
    ∧ transmittedContentLength .put none none = some "0" := by
  have h := empty_body_contentLength_zero .put (Or.inr (Or.inr (Or.inl rfl)))
  exact ⟨h.1, h.2 (Or.inl rfl)⟩

/-- Counterexample for C7 as stated: for a form body with boundary x and no
explicit content-type, the transmitted content-type is not the spec's
spaced format multipart slash form-data semicolon space boundary. -/
theorem form_contentType_cex :
    transmittedContentType none "x" ≠ "multipart/form-data; boundary=x" := by
  decide

/-- Claim C7 as amended: with no explicit content-type the transmitted
value is multipart/form-data;boundary=(the form's own boundary), with no
space after the semicolon; an explicit content-type is transmitted
unchanged. -/
theorem form_contentType (boundary explicitValue : String) :
    transmittedContentType none boundary = "multipart/form-data;boundary=" ++ boundary
    ∧ transmittedContentType (some explicitValue) boundary = explicitValue :=
  ⟨rfl, rfl⟩

/-- Claim C1: a retry-eligible response whose applicable retry-after delay
exceeds the configured maximum declines the retry entirely (the decision is
no-retry with no delay; the delay is never clamped to the maximum and then
retried). -/
theorem retryAfter_exceeding_max_declines (o : RetryOptions) (n : Nat) (m : String)
    (status ra : Nat) (hn : n ≤ o.limit) (hm : m ∈ o.methods)
    (hs : status ∈ o.statusCodes) (ha : status ∈ o.afterStatusCodes)
    (hra : o.maxRetryAfter < ra) :
    shouldRetry o n m (.httpResponse status (some ra)) = ⟨false, 0⟩ := by
  unfold shouldRetry
  have hr : retryableOutcome o (.httpResponse status (some ra)) = true := by
    simp [retryableOutcome]
    exact hs
  rw [if_pos ⟨hn, hm, hr⟩]
  simp [ha, hra]

/-- Witness for C1 at the spec scenario: retryable status 413 with a
retry-after of 120 seconds against a 60 second maximum is not retried. -/
theorem retryAfter_exceeding_max_declines_witness :
    shouldRetry ⟨2, ["get"], [413], [413], 60000, 10000⟩ 1 "get"
      (.httpResponse 413 (some 120000)) = ⟨false, 0⟩ :=
  retryAfter_exceeding_max_declines ⟨2, ["get"], [413], [413], 60000, 10000⟩ 1 "get"
    413 120000 (by decide) (by decide) (by decide) (by decide) (by decide)

/-- Claim C2: for every eligible retry attempt where no server-specified
retry-after applies, the computed delay is exactly
`min(backoffLimit, 0.3 * 2 ^ (n - 1) * 1000)` milliseconds, that is
`min(backoffLimit, 300 * 2 ^ (n - 1))`, deterministically. -/
theorem backoff_delay_deterministic (o : RetryOptions) (n : Nat) (m : String)
    (outcome : AttemptOutcome) (hn1 : 1 ≤ n) (hn : n ≤ o.limit) (hm : m ∈ o.methods)
    (hr : retryableOutcome o outcome = true)
    (hna : retryAfterApplies o outcome = false) :
    shouldRetry o n m outcome = ⟨true, min o.backoffLimit (300 * 2 ^ (n - 1))⟩ := by
  unfold shouldRetry
  rw [if_pos ⟨hn, hm, hr⟩]
  cases outcome with
  | networkError => rfl
  | httpResponse status ro =>
    cases ro with
    | none => rfl
    | some ra =>
      have hmem : ¬ status ∈ o.afterStatusCodes := by
        intro hmem
        simp [retryAfterApplies, hmem] at hna
      simp [hmem, backoffDelayMs]

/-- Witness for C2: with backoff limit 700 milliseconds, the second retry
of a retryable 500 response without retry-after waits
min(700, 300 * 2) = 600 milliseconds. -/
theorem backoff_delay_deterministic_witness :
    shouldRetry ⟨3, ["get"], [500], [413], 60000, 700⟩ 2 "get"
      (.httpResponse 500 none) = ⟨true, 600⟩ := by
  have h := backoff_delay_deterministic ⟨3, ["get"], [500], [413], 60000, 700⟩ 2 "get"
    (.httpResponse 500 none) (by decide) (by decide) (by decide) (by decide) (by decide)
  exact h.trans (by decide)

theorem mem_dropWhile_of_not {p : Char → Bool} {l : List Char} {c : Char}
    (hc : c ∈ l) (hw : p c = false) : c ∈ l.dropWhile p := by
  rw [← List.takeWhile_append_dropWhile p l] at hc
  rcases List.mem_append.mp hc with h | h
  · have := List.mem_takeWhile_imp h
    rw [hw] at this
    exact absurd this (by simp)
  · exact h

theorem trimChars_ne_nil {l : List Char} {c : Char} (hc : c ∈ l)
    (hw : isJsWs c = false) : trimChars l ≠ [] := by
  unfold trimChars
  intro hnil
  have h1 : c ∈ l.dropWhile isJsWs := mem_dropWhile_of_not hc hw
  have h2 : c ∈ (l.dropWhile isJsWs).reverse := List.mem_reverse.mpr h1
  have h3 : c ∈ (l.dropWhile isJsWs).reverse.dropWhile isJsWs :=
    mem_dropWhile_of_not h2 hw
  rw [List.reverse_eq_nil_iff] at hnil
  rw [hnil] at h3
  exact absurd h3 (List.not_mem_nil c)

theorem trimChars_cons_ws (c : Char) (l : List Char) (h : isJsWs c = true) :
    trimChars (c :: l) = trimChars l := by
  unfold trimChars
  rw [List.dropWhile_cons_of_pos h]

theorem digitChar_isDigit (d : Nat) (h : d < 10) : (Nat.digitChar d).isDigit = true := by
  have : ∀ e, e < 10 → (Nat.digitChar e).isDigit = true := by decide
  exact this d h

theorem natDigitsAux_eq_append (fuel : Nat) : ∀ (n : Nat) (acc : List Char),
    ∃ l, natDigitsAux fuel n acc = l ++ acc := by
  induction fuel with
  | zero => exact fun n acc => ⟨[], rfl⟩
  | succ fuel ih =>
    intro n acc
    unfold natDigitsAux
    by_cases h : n / 10 = 0
    · exact ⟨[Nat.digitChar (n % 10)], by rw [if_pos h]; rfl⟩
    · rw [if_neg h]
      obtain ⟨l, hl⟩ := ih (n / 10) (Nat.digitChar (n % 10) :: acc)
      exact ⟨l ++ [Nat.digitChar (n % 10)], by rw [hl]; simp⟩

theorem natDigitsAux_ne_nil (fuel n : Nat) (acc : List Char) :
    natDigitsAux (fuel + 1) n acc ≠ [] := by
  unfold natDigitsAux
  by_cases h : n / 10 = 0
  · rw [if_pos h]
    simp
  · rw [if_neg h]
    obtain ⟨l, hl⟩ := natDigitsAux_eq_append fuel (n / 10) (Nat.digitChar (n % 10) :: acc)
    rw [hl]
    simp

theorem natDigitsAux_all_digits (fuel : Nat) : ∀ (n : Nat) (acc : List Char),
    (∀ c ∈ acc, c.isDigit = true) → ∀ c ∈ natDigitsAux fuel n acc, c.isDigit = true := by
  induction fuel with
  | zero => exact fun n acc hacc => hacc
  | succ fuel ih =>
    intro n acc hacc
    unfold natDigitsAux
    have hd : (Nat.digitChar (n % 10)).isDigit = true :=
      digitChar_isDigit _ (Nat.mod_lt _ (by omega))
    have hcons : ∀ c ∈ Nat.digitChar (n % 10) :: acc, c.isDigit = true := by
      intro c hc
      rcases List.mem_cons.mp hc with hc | hc
      · exact hc ▸ hd
      · exact hacc c hc
    by_cases h : n / 10 = 0
    · rw [if_pos h]
      exact hcons
    · rw [if_neg h]
      exact ih (n / 10) _ hcons

theorem natToStr_has_digit (n : Nat) : ∃ c ∈ (natToStr n).data, c.isDigit = true := by
  obtain ⟨c, hc⟩ := List.exists_mem_of_ne_nil _ (natDigitsAux_ne_nil n n [])
  exact ⟨c, hc, natDigitsAux_all_digits (n + 1) n [] (by simp) c hc⟩

theorem isDigit_not_ws {c : Char} (h : c.isDigit = true) : isJsWs c = false := by
  cases hw : isJsWs c with
  | false => rfl
  | true =>
    unfold isJsWs at hw
    rcases of_decide_eq_true hw with h1 | h1 | h1 | h1 | h1 | h1 <;> subst h1 <;>
      exact absurd h (by decide)

theorem str_append_left_cancel {a x y : String} (h : a ++ x = a ++ y) : x = y := by
  apply String.ext
  have hd := congrArg String.data h
  rw [String.data_append, String.data_append] at hd
  exact List.append_cancel_left hd

theorem ne_of_head_append {s t u : String} {c d : Char}
    (hs : s.data.head? = some c) (hu : u.data.head? = some d) (hcd : c ≠ d) :
    s ++ t ≠ u := by
  intro h
  have hd := congrArg String.data h
  rw [String.data_append] at hd
  rw [← hd, List.head?_append, hs] at hu
  simp at hu
  exact hcd hu

theorem status_code_ne_unknown (s : String) :
    ("status code " ++ s) ≠ "an unknown error" :=
  ne_of_head_append (c := 's') (d := 'a') (by decide) (by decide) (by decide)

theorem jsTrim_ne_empty_of_digit {s : String} {c : Char} (hc : c ∈ s.data)
    (hd : c.isDigit = true) : jsTrim s ≠ "" := by
  unfold jsTrim
  intro h
  have hdata : trimChars s.data = [] := by
    have := congrArg String.data h
    simpa using this
  exact trimChars_ne_nil hc (isDigit_not_ws hd) hdata

theorem message_of_some_status {Req Opt : Type} (n : Nat) (t b : String)
    (req : Req) (opt : Opt) :
    (mkHTTPError ⟨some n, t, b⟩ req opt).message
      = "Request failed with status code " ++ jsTrim (natToStr n ++ " " ++ t) := by
  obtain ⟨c, hc, hdig⟩ := natToStr_has_digit n
  have hcmem : c ∈ ((natToStr n ++ " " ++ t)).data := by
    rw [String.data_append, String.data_append]
    exact List.mem_append.mpr (Or.inl (List.mem_append.mpr (Or.inl hc)))
  have hne : jsTrim (natToStr n ++ " " ++ t) ≠ "" :=
    jsTrim_ne_empty_of_digit hcmem hdig
  show "Request failed with " ++ _ = _
  rw [if_neg hne, ← String.append_assoc]
  rfl

theorem jsTrim_space_append (t : String) : jsTrim ("" ++ " " ++ t) = jsTrim t := by
  unfold jsTrim
  have hdata : ("" ++ " " ++ t).data = ' ' :: t.data := by
    rw [String.data_append, String.data_append]
    rfl
  rw [hdata, trimChars_cons_ws _ _ (by decide)]

theorem message_of_none_status {Req Opt : Type} (t b : String) (req : Req) (opt : Opt) :
    (mkHTTPError ⟨none, t, b⟩ req opt).message = "Request failed with an unknown error"
      ↔ jsTrim t = "" := by
  have hmsg : (mkHTTPError ⟨none, t, b⟩ req opt).message
      = "Request failed with "
        ++ (if jsTrim t = "" then "an unknown error" else "status code " ++ jsTrim t) := by
    show "Request failed with " ++ _ = _
    rw [jsTrim_space_append]
  rw [hmsg]
  constructor
  · intro h
    by_contra hne
    rw [if_neg hne] at h
    have h2 : "Request failed with " ++ ("status code " ++ jsTrim t)
        = "Request failed with " ++ "an unknown error" := h.trans (by decide)
    exact status_code_ne_unknown (jsTrim t) (str_append_left_cancel h2)
  · intro h
    rw [if_pos h]
    decide

/-- Claim C9: an HTTPError constructed from a response, request and options
carries exactly those three values, and its json accessor parses the body
of (a clone of) the carried response. -/
theorem httpError_carries {Req Opt α : Type} (r : JsResponse) (req : Req) (opt : Opt)
    (parse : String → α) :
    (mkHTTPError r req opt).response = r
    ∧ (mkHTTPError r req opt).request = req
    ∧ (mkHTTPError r req opt).options = opt
    ∧ (mkHTTPError r req opt).json parse = parse r.bodyText :=
  ⟨rfl, rfl, rfl, rfl⟩

/-- Claim C10 as amended: the name is always HTTPError; with a numeric
status (zero included) the message is the trimmed status-code form; the
message is the unknown-error form exactly when the status is absent and
the statusText trims to the empty string (empty or whitespace-only). -/
theorem httpError_message_spec {Req Opt : Type} (st : Option Nat) (t b : String)
    (req : Req) (opt : Opt) :
    (mkHTTPError ⟨st, t, b⟩ req opt).name = "HTTPError"
    ∧ (∀ n, st = some n → (mkHTTPError ⟨st, t, b⟩ req opt).message
        = "Request failed with status code " ++ jsTrim (natToStr n ++ " " ++ t))
    ∧ ((mkHTTPError ⟨st, t, b⟩ req opt).message = "Request failed with an unknown error"
        ↔ st = none ∧ jsTrim t = "") := by
  refine ⟨rfl, ?_, ?_⟩
  · intro n hn
    subst hn
    exact message_of_some_status n t b req opt
  · cases st with
    | none =>
      rw [message_of_none_status]
      simp
    | some n =>
      constructor
      · intro h
        rw [message_of_some_status n t b req opt] at h
        exfalso
        have hsplit : "Request failed with status code " ++ jsTrim (natToStr n ++ " " ++ t)
            = "Request failed with "
              ++ ("status code " ++ jsTrim (natToStr n ++ " " ++ t)) := by
          rw [← String.append_assoc]
          rfl
        have h2 : "Request failed with " ++ ("status code " ++ jsTrim (natToStr n ++ " " ++ t))
            = "Request failed with " ++ "an unknown error" :=
          (hsplit.symm.trans h).trans (by decide)
        exact status_code_ne_unknown _ (str_append_left_cancel h2)
      · rintro ⟨h, -⟩
        exact absurd h (by simp)

/-- Counterexample for C10 as stated: with an absent status and a statusText
of one space (non-empty), the message is still the unknown-error form. -/
theorem httpError_message_cex :
    (mkHTTPError (⟨none, " ", ""⟩ : JsResponse) () ()).message
      = "Request failed with an unknown error"
    ∧ (" " : String) ≠ "" :=
  ⟨by decide, by decide⟩

/-- Witness for C10 as amended, at status 0 (a real status code) and at an
absent status with empty statusText. -/
theorem httpError_message_spec_witness :
    (mkHTTPError (⟨some 0, "", ""⟩ : JsResponse) () ()).message
      = "Request failed with status code 0"
    ∧ (mkHTTPError (⟨none, "", ""⟩ : JsResponse) () ()).message
      = "Request failed with an unknown error"
    ∧ (mkHTTPError (⟨some 0, "", ""⟩ : JsResponse) () ()).name = "HTTPError" := by
  refine ⟨?_, ?_, (httpError_message_spec (some 0) "" "" () ()).1⟩
  · have h := (httpError_message_spec (some 0) "" "" () ()).2.1 0 rfl
    exact h.trans (by decide)
  · exact (httpError_message_spec none "" "" () ()).2.2.mpr ⟨rfl, by decide⟩

end Ky
